import Mathlib

/- Shallow embedding of the HTB progress tracker
   (src/bot.py and src/utils/update_root_flags.py).

   Modelling conventions:
   * Activity ids are Nat (the HTB API serves numeric ids).
   * The Python composite keys "<id>_user" stored in user_flag_ids all carry
     the constant suffix "_user", so string membership of a composite key is
     equivalent to Nat membership of its base id; we store the base id.
   * solved_ids / user_flag_ids / root_flag_ids are modelled as Finset Nat:
     the Python code only ever tests membership, appends an element that is
     absent, sorts, and takes lengths of duplicate-free lists, so list order
     carries no meaning; a sorted duplicate-free list is exactly a Finset.
   * discord_id is Option Nat, mirroring the `"discord_id" in user` guard. -/

/-- One entry of the HTB activity feed, as read by `check_htb_activity`:
`id` = `activity.get("id")`, `object_type` = `activity.get("object_type")`,
`type` = `activity.get("type")` (the flag type), `name` = `activity.get("name")`. -/
structure Activity where
  id : Nat
  object_type : String
  type : String
  name : String
deriving DecidableEq

/-- One tracked user record of `db["users"]` (bot.py, `track`). -/
structure TrackedUser where
  name : String
  discord_id : Option Nat
  machines : Nat
  challenges : Nat
  streak : Nat
  solved_ids : Finset Nat
  user_flag_ids : Finset Nat
  root_flag_ids : Finset Nat
deriving DecidableEq

/-- bot.py lines 410-417: the `already_processed` test. For a machine
user-flag the composite key `f"{act_id}_user"` is looked up in
`user_flag_ids`; every other activity is looked up in `solved_ids`. -/
def alreadyProcessed (u : TrackedUser) (a : Activity) : Bool :=
  if a.object_type = "machine" ∧ a.type = "user" then
    decide (a.id ∈ u.user_flag_ids)
  else
    decide (a.id ∈ u.solved_ids)

/-- The semantic outcome of one activity under `check_htb_activity`'s
branching (the spec's Event Classifier): `alreadySeen` means the
`already_processed` guard fired (no mutation, no notification);
`notifyOnly` is a machine user-flag (notification only, the spec's
notify-only outcome); `countsAsSolve c` increments a counter / records the
id in `solved_ids`. -/
inductive SolveCategory
  | machineRoot
  | machineOther
  | challenge
  | unrecognized
deriving DecidableEq

inductive Outcome
  | alreadySeen
  | notifyOnly
  | countsAsSolve (c : SolveCategory)
deriving DecidableEq

/-- The classification implicit in bot.py lines 410-491, read off the
branch structure of `check_htb_activity`. -/
def classify (u : TrackedUser) (a : Activity) : Outcome :=
  if alreadyProcessed u a then .alreadySeen
  else if a.object_type = "machine" then
    if a.type = "user" then .notifyOnly
    else if a.type = "root" then .countsAsSolve .machineRoot
    else .countsAsSolve .machineOther
  else if a.object_type = "challenge" then .countsAsSolve .challenge
  else .countsAsSolve .unrecognized

/-- The state mutation of one iteration of the inner loop of
`check_htb_activity` (bot.py lines 404-491):
* machine user-flag: add the composite key to `user_flag_ids`, no counter;
* machine root-flag: `machines += 1`, id into `solved_ids` and
  `root_flag_ids`;
* machine with another flag type: id into `solved_ids` only;
* challenge: `challenges += 1`, id into `solved_ids`;
* any other object type: id into `solved_ids` only;
* `already_processed` activities mutate nothing. -/
def processActivity (u : TrackedUser) (a : Activity) : TrackedUser :=
  if alreadyProcessed u a then u
  else if a.object_type = "machine" then
    if a.type = "user" then
      { u with user_flag_ids := insert a.id u.user_flag_ids }
    else if a.type = "root" then
      { u with machines := u.machines + 1,
               solved_ids := insert a.id u.solved_ids,
               root_flag_ids := insert a.id u.root_flag_ids }
    else
      { u with solved_ids := insert a.id u.solved_ids }
  else if a.object_type = "challenge" then
    { u with challenges := u.challenges + 1,
             solved_ids := insert a.id u.solved_ids }
  else
    { u with solved_ids := insert a.id u.solved_ids }

/-- One ingestion cycle for one user: `for activity in reversed(activities)`
(bot.py line 404) — the feed is served newest-first and processed in
chronological order. -/
def runCycle (u : TrackedUser) (activities : List Activity) : TrackedUser :=
  activities.reverse.foldl processActivity u

/-- First registration, bot.py `track` lines 240-259: a fresh record with
zero counters and zero streak, `solved_ids` seeded with the ids of the
user's current activity snapshot (`existing_ids`), and empty
`user_flag_ids` / `root_flag_ids`. -/
def registerUser (name : String) (discordId : Nat) (snapshot : List Activity) :
    TrackedUser :=
  { name := name, discord_id := some discordId, machines := 0,
    challenges := 0, streak := 0,
    solved_ids := (snapshot.map Activity.id).toFinset,
    user_flag_ids := ∅, root_flag_ids := ∅ }

/- ===== Reconciliation (src/utils/update_root_flags.py) ===== -/

/-- update_root_flags.py lines 76-97: the set `root_flags` of ids of
machine root-flag activities with `act_id in solved_ids and act_id not in
user_flag_machine_ids` (where `user_flag_machine_ids` is the set of base
ids parsed back out of the `"<id>_user"` composite keys, i.e. exactly
`u.user_flag_ids` in this embedding). -/
def rootFlagsOf (u : TrackedUser) (activities : List Activity) : Finset Nat :=
  (activities.filterMap (fun a =>
    if a.object_type = "machine" ∧ a.type = "root" ∧
        a.id ∈ u.solved_ids ∧ a.id ∉ u.user_flag_ids
    then some a.id else none)).toFinset

/-- update_root_flags.py lines 99-101: the set `challenge_ids` of ids of
challenge activities with `act_id in solved_ids`. -/
def challengeIdsOf (u : TrackedUser) (activities : List Activity) : Finset Nat :=
  (activities.filterMap (fun a =>
    if a.object_type = "challenge" ∧ a.id ∈ u.solved_ids
    then some a.id else none)).toFinset

/-- One user's pass of `check_root_flags_manual` (update_root_flags.py
lines 68-145). `if not activities: continue` skips the user on an empty
fetch. Otherwise, if `root_flags` is non-empty, `root_flag_ids` becomes its
(sorted) id list and `machines` its cardinality; if empty, both are zeroed.
`challenges` becomes `len(challenge_ids)`. The Python guards every
assignment with an inequality test that only drives the `needs_update`
bookkeeping; the resulting state equals the unconditional assignment
written here. -/
def reconcileUser (u : TrackedUser) (activities : List Activity) : TrackedUser :=
  if activities = [] then u
  else if rootFlagsOf u activities = ∅ then
    { u with root_flag_ids := ∅, machines := 0,
             challenges := (challengeIdsOf u activities).card }
  else
    { u with root_flag_ids := rootFlagsOf u activities,
             machines := (rootFlagsOf u activities).card,
             challenges := (challengeIdsOf u activities).card }

/-- The per-user fetch step of `check_root_flags_manual`:
`get_user_activity` collapses every failure to `None`, and
`if not activities: continue` treats `None` and `[]` alike. -/
def reconcileUserFetch (u : TrackedUser) (r : Option (List Activity)) :
    TrackedUser :=
  match r with
  | none => u
  | some activities => reconcileUser u activities

/-- The whole reconciliation job over `db["users"]` (update_root_flags.py
lines 68-153): every tracked user is visited independently with its own
fetch result. -/
def reconcileAll (users : List (Nat × TrackedUser))
    (fetch : Nat → Option (List Activity)) : List (Nat × TrackedUser) :=
  users.map (fun p => (p.1, reconcileUserFetch p.2 (fetch p.1)))

/- ===== Reset engine (bot.py `perform_reset_logic`, lines 139-207) ===== -/

def GOAL_MACHINES : Nat := 1
def GOAL_CHALLENGES : Nat := 2

/-- Per-user body of the reset loop (bot.py lines 145-166): both goals must
be met individually; streak bumped or zeroed; both counters zeroed. -/
def resetUser (u : TrackedUser) : TrackedUser :=
  if u.machines ≥ GOAL_MACHINES ∧ u.challenges ≥ GOAL_CHALLENGES then
    { u with streak := u.streak + 1, machines := 0, challenges := 0 }
  else
    { u with streak := 0, machines := 0, challenges := 0 }

/-- Output of `perform_reset_logic`: the updated users, the
`completed_list` entries (name, new streak), the `failed_list` entries
(name, machine count, challenge count), the `loser_mentions` discord ids,
and how many times `save_db` ran. The Python formats each list entry into
a string; we keep the data the string is built from. -/
structure ResetOutcome where
  users : List (Nat × TrackedUser)
  completed : List (String × Nat)
  failed : List (String × Nat × Nat)
  loserMentions : List Nat
  saveCount : Nat

/-- bot.py `perform_reset_logic` lines 145-168: one loop over all users
(rendered as a map plus filterMaps over the same list) followed by a single
`save_db(db)`. A failing user's discord id is collected only under the
`if "discord_id" in user` guard. -/
def performResetLogic (users : List (Nat × TrackedUser)) : ResetOutcome :=
  { users := users.map (fun p => (p.1, resetUser p.2)),
    completed := users.filterMap (fun p =>
      if p.2.machines ≥ GOAL_MACHINES ∧ p.2.challenges ≥ GOAL_CHALLENGES
      then some (p.2.name, p.2.streak + 1) else none),
    failed := users.filterMap (fun p =>
      if p.2.machines ≥ GOAL_MACHINES ∧ p.2.challenges ≥ GOAL_CHALLENGES
      then none else some (p.2.name, p.2.machines, p.2.challenges)),
    loserMentions := users.filterMap (fun p =>
      if p.2.machines ≥ GOAL_MACHINES ∧ p.2.challenges ≥ GOAL_CHALLENGES
      then none else p.2.discord_id),
    saveCount := 1 }

/- ===== Reset scheduler (bot.py `scheduled_weekly_reset`, 521-538) ===== -/

/-- One invocation instant of the scheduled task body, in Europe/Athens
local time: `date` is a calendar-date index, `weekday` is Python's
`datetime.weekday()` (0 = Monday, 5 = Saturday), `minutesOfDay` the local
time of day. -/
structure Tick where
  date : Nat
  weekday : Nat
  minutesOfDay : Nat
deriving DecidableEq

/-- The body of `scheduled_weekly_reset` (bot.py lines 524-538): it fires
the reset exactly when `now_greece.weekday() == 5`; it consults no
last-fired date and records nothing. Scheduling at 21:00 Athens time is
done by `tasks.loop(time=...)`, outside the body. -/
def scheduledResetFires (t : Tick) : Bool := t.weekday == 5

/-- The ticks of a run on which the body fires `perform_reset_logic`. -/
def resetFirings (ticks : List Tick) : List Tick :=
  ticks.filter scheduledResetFires

/- ===== Per-event tail of the ingestion loop (bot.py 419-517) ===== -/

/-- Result of one inner-loop iteration of `check_htb_activity`:
the in-memory user state when the iteration ends, whether the Discord
notification was delivered, and whether `save_db` ran for this event. -/
structure IngestStepResult where
  state : TrackedUser
  notified : Bool
  persisted : Bool
deriving DecidableEq

/-- One iteration of the inner loop of `check_htb_activity` with the
notification send made explicit (bot.py lines 404-517): an
`already_processed` activity does nothing; otherwise the in-memory
mutation (lines 431-491) happens first, then `await channel.send(embed)`
(line 516), then `save_db(db)` (line 517). An exception from the send
aborts the iteration before `save_db`, leaving the mutation in memory but
unpersisted. -/
def ingestionEventStep (u : TrackedUser) (a : Activity) (sendSucceeds : Bool) :
    IngestStepResult :=
  if alreadyProcessed u a then ⟨u, false, false⟩
  else
    let u' := processActivity u a
    if sendSucceeds then ⟨u', true, true⟩ else ⟨u', false, false⟩

/- ===== Helper lemmas ===== -/

/-- After `check_htb_activity` processes an activity, its
`already_processed` test holds for that same activity. -/
lemma alreadyProcessed_processActivity (u : TrackedUser) (a : Activity) :
    alreadyProcessed (processActivity u a) a = true := by
  by_cases h : alreadyProcessed u a = true
  · simp [processActivity, h]
  · rw [processActivity, if_neg h]
    by_cases hm : a.object_type = "machine"
    · by_cases hu : a.type = "user"
      · simp [hm, hu, alreadyProcessed]
      · by_cases hr : a.type = "root"
        · simp [hm, hu, hr, alreadyProcessed]
        · simp [hm, hu, hr, alreadyProcessed]
    · by_cases hc : a.object_type = "challenge"
      · simp [hm, hc, alreadyProcessed]
      · simp [hm, hc, alreadyProcessed]

/-- Claim C2: for every event and every starting dedup state, processing
the same event a second time, after the first occurrence's state update
has been applied, classifies as `alreadySeen` — hence no counter change,
no dedup-set change and no notification (`check_htb_activity` notifies and
mutates only in the `not already_processed` branch) — whatever outcome the
first occurrence produced. -/
theorem replay_same_event_alreadySeen (u : TrackedUser) (a : Activity) :
    classify (processActivity u a) a = Outcome.alreadySeen ∧
    processActivity (processActivity u a) a = processActivity u a := by
  have h := alreadyProcessed_processActivity u a
  exact ⟨by rw [classify, if_pos h], by rw [processActivity, if_pos h]⟩

/-- Claim C1: for any tracked user and any two-stage (machine) target not
yet counted, the user-flag stage changes neither counter, user-flag then
root-flag increases `machines` by exactly 1 in total, and the root-flag
alone (no user-flag ever observed) also increases `machines` by exactly 1. -/
theorem two_stage_target_counts_once (u : TrackedUser) (n : Nat) (s t : String)
    (h : n ∉ u.solved_ids) :
    (processActivity u ⟨n, "machine", "user", s⟩).machines = u.machines ∧
    (processActivity u ⟨n, "machine", "user", s⟩).challenges = u.challenges ∧
    (processActivity (processActivity u ⟨n, "machine", "user", s⟩)
        ⟨n, "machine", "root", t⟩).machines = u.machines + 1 ∧
    (processActivity u ⟨n, "machine", "root", t⟩).machines = u.machines + 1 := by
  have hroot : ∀ v : TrackedUser, n ∉ v.solved_ids →
      processActivity v ⟨n, "machine", "root", t⟩ =
        { v with machines := v.machines + 1,
                 solved_ids := insert n v.solved_ids,
                 root_flag_ids := insert n v.root_flag_ids } := by
    intro v hn
    simp [processActivity, alreadyProcessed, hn]
  by_cases hu : n ∈ u.user_flag_ids
  · have hp : processActivity u ⟨n, "machine", "user", s⟩ = u := by
      simp [processActivity, alreadyProcessed, hu]
    rw [hp, hroot u h]
    exact ⟨rfl, rfl, rfl, rfl⟩
  · have hp : processActivity u ⟨n, "machine", "user", s⟩ =
        { u with user_flag_ids := insert n u.user_flag_ids } := by
      simp [processActivity, alreadyProcessed, hu]
    rw [hp, hroot { u with user_flag_ids := insert n u.user_flag_ids } h,
      hroot u h]
    exact ⟨rfl, rfl, rfl, rfl⟩

/-- Witness for C1 at a concrete input. -/
theorem two_stage_target_counts_once_witness :
    (5 : Nat) ∉ (∅ : Finset Nat) ∧
    (processActivity
      (processActivity
        { name := "a", discord_id := some 1, machines := 0, challenges := 0,
          streak := 0, solved_ids := ∅, user_flag_ids := ∅,
          root_flag_ids := ∅ }
        { id := 5, object_type := "machine", type := "user", name := "X" })
      { id := 5, object_type := "machine", type := "root", name := "X" }).machines
      = 0 + 1 :=
  ⟨by decide,
   (two_stage_target_counts_once
      { name := "a", discord_id := some 1, machines := 0, challenges := 0,
        streak := 0, solved_ids := ∅, user_flag_ids := ∅, root_flag_ids := ∅ }
      5 "X" "X" (by decide)).2.2.1⟩

/-- Claim C4: one invocation of `perform_reset_logic` on a user with an
owner reference: if both goal thresholds are individually met the streak
is bumped by exactly 1 and the user lands in the passed report; otherwise
the streak is zeroed and the user lands in the failed report while their
discord id is collected for the callout; both counters are zeroed either
way; `save_db` runs exactly once, after all users are processed. -/
theorem perform_reset_logic_per_user (users : List (Nat × TrackedUser))
    (uid d : Nat) (u : TrackedUser) (h : (uid, u) ∈ users)
    (hd : u.discord_id = some d) :
    (performResetLogic users).saveCount = 1 ∧
    (uid, resetUser u) ∈ (performResetLogic users).users ∧
    (resetUser u).machines = 0 ∧ (resetUser u).challenges = 0 ∧
    ((u.machines ≥ GOAL_MACHINES ∧ u.challenges ≥ GOAL_CHALLENGES) →
      (resetUser u).streak = u.streak + 1 ∧
      (u.name, u.streak + 1) ∈ (performResetLogic users).completed) ∧
    (¬(u.machines ≥ GOAL_MACHINES ∧ u.challenges ≥ GOAL_CHALLENGES) →
      (resetUser u).streak = 0 ∧
      (u.name, u.machines, u.challenges) ∈ (performResetLogic users).failed ∧
      d ∈ (performResetLogic users).loserMentions) := by
  refine ⟨rfl, ?_, ?_, ?_, ?_, ?_⟩
  · exact List.mem_map_of_mem (fun p => (p.1, resetUser p.2)) h
  · rw [resetUser]; split <;> rfl
  · rw [resetUser]; split <;> rfl
  · intro hg
    refine ⟨by rw [resetUser, if_pos hg], ?_⟩
    exact List.mem_filterMap.mpr ⟨(uid, u), h, by simp only [if_pos hg]⟩
  · intro hg
    refine ⟨by rw [resetUser, if_neg hg], ?_, ?_⟩
    · exact List.mem_filterMap.mpr ⟨(uid, u), h, by simp only [if_neg hg]⟩
    · exact List.mem_filterMap.mpr ⟨(uid, u), h, by simp only [if_neg hg, hd]⟩

/-- Witness for C4 at the spec's scenario: `machines=1, challenges=2,
streak=3` against goals `{machines:1, challenges:2}` passes and ends with
streak 4. -/
theorem perform_reset_logic_per_user_witness :
    (resetUser
      { name := "a", discord_id := some 9, machines := 1, challenges := 2,
        streak := 3, solved_ids := ∅, user_flag_ids := ∅,
        root_flag_ids := ∅ }).streak = 3 + 1 ∧
    ("a", 3 + 1) ∈
      (performResetLogic
        [(1, { name := "a", discord_id := some 9, machines := 1,
               challenges := 2, streak := 3, solved_ids := ∅,
               user_flag_ids := ∅, root_flag_ids := ∅ })]).completed :=
  (perform_reset_logic_per_user
    [(1, { name := "a", discord_id := some 9, machines := 1, challenges := 2,
           streak := 3, solved_ids := ∅, user_flag_ids := ∅,
           root_flag_ids := ∅ })] 1 9
    { name := "a", discord_id := some 9, machines := 1, challenges := 2,
      streak := 3, solved_ids := ∅, user_flag_ids := ∅, root_flag_ids := ∅ }
    (by decide) rfl).2.2.2.2.1 (by decide)

/- ===== Reconciliation lemmas and theorems ===== -/

lemma reconcileUser_solved_ids (u : TrackedUser) (acts : List Activity) :
    (reconcileUser u acts).solved_ids = u.solved_ids := by
  rw [reconcileUser]; split_ifs <;> rfl

lemma reconcileUser_user_flag_ids (u : TrackedUser) (acts : List Activity) :
    (reconcileUser u acts).user_flag_ids = u.user_flag_ids := by
  rw [reconcileUser]; split_ifs <;> rfl

/-- `root_flags` depends only on `solved_ids` and `user_flag_ids`. -/
lemma rootFlagsOf_congr (u v : TrackedUser) (acts : List Activity)
    (hs : v.solved_ids = u.solved_ids)
    (hu : v.user_flag_ids = u.user_flag_ids) :
    rootFlagsOf v acts = rootFlagsOf u acts := by
  simp only [rootFlagsOf, hs, hu]

/-- `challenge_ids` depends only on `solved_ids`. -/
lemma challengeIdsOf_congr (u v : TrackedUser) (acts : List Activity)
    (hs : v.solved_ids = u.solved_ids) :
    challengeIdsOf v acts = challengeIdsOf u acts := by
  simp only [challengeIdsOf, hs]

/-- One user's reconciliation pass is idempotent against the same history. -/
lemma reconcileUser_idem (u : TrackedUser) (acts : List Activity) :
    reconcileUser (reconcileUser u acts) acts = reconcileUser u acts := by
  by_cases h : acts = []
  · simp [reconcileUser, h]
  · have hr : rootFlagsOf (reconcileUser u acts) acts = rootFlagsOf u acts :=
      rootFlagsOf_congr u _ acts (reconcileUser_solved_ids u acts)
        (reconcileUser_user_flag_ids u acts)
    have hc : challengeIdsOf (reconcileUser u acts) acts
        = challengeIdsOf u acts :=
      challengeIdsOf_congr u _ acts (reconcileUser_solved_ids u acts)
    nth_rewrite 1 [reconcileUser]
    rw [if_neg h, hr, hc]
    by_cases hre : rootFlagsOf u acts = ∅
    · rw [if_pos hre]
      rw [reconcileUser, if_neg h, if_pos hre]
    · rw [if_neg hre]
      rw [reconcileUser, if_neg h, if_neg hre]

lemma reconcileUserFetch_idem (u : TrackedUser) (r : Option (List Activity)) :
    reconcileUserFetch (reconcileUserFetch u r) r = reconcileUserFetch u r := by
  cases r with
  | none => rfl
  | some acts => exact reconcileUser_idem u acts

/-- Claim C7: running the Reconciliation Job twice consecutively against
the same unchanged event history leaves every tracked user identical after
the second run to its state after the first (the second run changes
nothing). -/
theorem reconciliation_idempotent (users : List (Nat × TrackedUser))
    (fetch : Nat → Option (List Activity)) :
    reconcileAll (reconcileAll users fetch) fetch = reconcileAll users fetch := by
  simp only [reconcileAll, List.map_map]
  apply List.map_congr_left
  intro p _
  simp only [Function.comp_apply]
  rw [reconcileUserFetch_idem]

/-- Claim C6: immediately after a reconciliation pass over a user (one
with a non-empty fetched history, so the pass is not skipped), `machines`
equals the cardinality of `root_flag_ids` and `challenges` equals the
number of challenge ids the pass recomputed as counted from raw history. -/
theorem reconciliation_counter_invariant (u : TrackedUser)
    (acts : List Activity) (h : acts ≠ []) :
    (reconcileUser u acts).machines = (reconcileUser u acts).root_flag_ids.card ∧
    (reconcileUser u acts).challenges = (challengeIdsOf u acts).card := by
  rw [reconcileUser, if_neg h]
  by_cases hre : rootFlagsOf u acts = ∅
  · rw [if_pos hre]; exact ⟨rfl, rfl⟩
  · rw [if_neg hre]; exact ⟨rfl, rfl⟩

/-- Witness for C6 at a concrete input. -/
theorem reconciliation_counter_invariant_witness :
    (reconcileUser
        { name := "a", discord_id := some 1, machines := 7, challenges := 7,
          streak := 0, solved_ids := {5}, user_flag_ids := ∅,
          root_flag_ids := ∅ }
        [{ id := 5, object_type := "machine", type := "root", name := "X" }]).machines
      = (reconcileUser
        { name := "a", discord_id := some 1, machines := 7, challenges := 7,
          streak := 0, solved_ids := {5}, user_flag_ids := ∅,
          root_flag_ids := ∅ }
        [{ id := 5, object_type := "machine", type := "root", name := "X" }]).root_flag_ids.card :=
  (reconciliation_counter_invariant
    { name := "a", discord_id := some 1, machines := 7, challenges := 7,
      streak := 0, solved_ids := {5}, user_flag_ids := ∅, root_flag_ids := ∅ }
    [{ id := 5, object_type := "machine", type := "root", name := "X" }]
    (by decide)).1

/-- Claim C10: a failed (`None`) or empty fetch leaves the user's record
entirely unchanged — counters and flag sets included — while the job's
per-user structure still visits every other user; and zeroing a user's
machine count or root-flag set can only happen on a successfully fetched
non-empty history whose qualifying root-completion set is empty. -/
theorem reconciliation_skip_and_zeroing (u : TrackedUser)
    (r : Option (List Activity)) :
    ((r = none ∨ r = some []) → reconcileUserFetch u r = u) ∧
    (∀ (users : List (Nat × TrackedUser))
        (fetch : Nat → Option (List Activity)),
      ∀ p ∈ users,
        (p.1, reconcileUserFetch p.2 (fetch p.1)) ∈ reconcileAll users fetch) ∧
    (∀ acts : List Activity,
      (reconcileUserFetch u (some acts)).machines = 0 → 0 < u.machines →
        acts ≠ [] ∧ rootFlagsOf u acts = ∅) ∧
    (∀ acts : List Activity,
      (reconcileUserFetch u (some acts)).root_flag_ids = ∅ →
        u.root_flag_ids ≠ ∅ → acts ≠ [] ∧ rootFlagsOf u acts = ∅) := by
  refine ⟨?_, ?_, ?_, ?_⟩
  · rintro (rfl | rfl)
    · rfl
    · show reconcileUser u [] = u
      rw [reconcileUser, if_pos rfl]
  · intro users fetch p hp
    exact List.mem_map_of_mem _ hp
  · intro acts hm hpos
    by_cases h : acts = []
    · subst h
      rw [show reconcileUserFetch u (some []) = u from
            by rw [reconcileUserFetch, reconcileUser, if_pos rfl]] at hm
      omega
    · refine ⟨h, ?_⟩
      by_cases hre : rootFlagsOf u acts = ∅
      · exact hre
      · exfalso
        rw [reconcileUserFetch, reconcileUser, if_neg h, if_neg hre] at hm
        exact hre (Finset.card_eq_zero.mp hm)
  · intro acts hm hne
    by_cases h : acts = []
    · subst h
      rw [show reconcileUserFetch u (some []) = u from
            by rw [reconcileUserFetch, reconcileUser, if_pos rfl]] at hm
      exact absurd hm hne
    · refine ⟨h, ?_⟩
      by_cases hre : rootFlagsOf u acts = ∅
      · exact hre
      · exfalso
        rw [reconcileUserFetch, reconcileUser, if_neg h, if_neg hre] at hm
        exact hre hm

/-- Witness for C10 at a concrete input: a failed fetch changes nothing. -/
theorem reconciliation_skip_and_zeroing_witness :
    reconcileUserFetch
      { name := "a", discord_id := some 1, machines := 3, challenges := 4,
        streak := 2, solved_ids := {5}, user_flag_ids := ∅,
        root_flag_ids := {5} } none
    = { name := "a", discord_id := some 1, machines := 3, challenges := 4,
        streak := 2, solved_ids := {5}, user_flag_ids := ∅,
        root_flag_ids := {5} } :=
  (reconciliation_skip_and_zeroing
    { name := "a", discord_id := some 1, machines := 3, challenges := 4,
      streak := 2, solved_ids := {5}, user_flag_ids := ∅,
      root_flag_ids := {5} } none).1 (Or.inl rfl)

/-- Counterexample to claim C3 as stated: register a fresh user, then let
the Ingestion Loop observe the user-flag and then the root-flag of machine
5 (feed is newest-first, so the cycle list is `[root, user]`). The loop
counts the machine (`machines = 1`, `5 ∈ root_flag_ids`), yet a
Reconciliation run over the very same unchanged history zeroes `machines`
and removes 5 from `root_flag_ids`, because update_root_flags.py line 96
excludes any root event whose id is in `user_flag_machine_ids`. -/
theorem reconciliation_removes_user_flagged_root :
    (runCycle
      { name := "a", discord_id := some 1, machines := 0, challenges := 0,
        streak := 0, solved_ids := ∅, user_flag_ids := ∅, root_flag_ids := ∅ }
      [{ id := 5, object_type := "machine", type := "root", name := "X" },
       { id := 5, object_type := "machine", type := "user", name := "X" }]).machines
      = 1 ∧
    (5 : Nat) ∈ (runCycle
      { name := "a", discord_id := some 1, machines := 0, challenges := 0,
        streak := 0, solved_ids := ∅, user_flag_ids := ∅, root_flag_ids := ∅ }
      [{ id := 5, object_type := "machine", type := "root", name := "X" },
       { id := 5, object_type := "machine", type := "user", name := "X" }]).root_flag_ids ∧
    (reconcileUser
      (runCycle
        { name := "a", discord_id := some 1, machines := 0, challenges := 0,
          streak := 0, solved_ids := ∅, user_flag_ids := ∅, root_flag_ids := ∅ }
        [{ id := 5, object_type := "machine", type := "root", name := "X" },
         { id := 5, object_type := "machine", type := "user", name := "X" }])
      [{ id := 5, object_type := "machine", type := "root", name := "X" },
       { id := 5, object_type := "machine", type := "user", name := "X" }]).machines
      = 0 ∧
    (5 : Nat) ∉ (reconcileUser
      (runCycle
        { name := "a", discord_id := some 1, machines := 0, challenges := 0,
          streak := 0, solved_ids := ∅, user_flag_ids := ∅, root_flag_ids := ∅ }
        [{ id := 5, object_type := "machine", type := "root", name := "X" },
         { id := 5, object_type := "machine", type := "user", name := "X" }])
      [{ id := 5, object_type := "machine", type := "root", name := "X" },
       { id := 5, object_type := "machine", type := "user", name := "X" }]).root_flag_ids := by
  decide

/-- Claim C3 amended: a counted full-stage (root) completion is preserved
by reconciliation exactly when its partial (user-flag) stage was never
observed: if the unchanged history holds the root event, its id is in
`solved_ids` and not in `user_flag_ids`, the Reconciliation run keeps it in
`root_flag_ids` and keeps `machines` positive. (When the user flag was
observed, reconciliation removes the completion — see the
counterexample.) -/
theorem reconciliation_preserves_unflagged_root (u : TrackedUser)
    (acts : List Activity) (a : Activity) (ha : a ∈ acts)
    (hm : a.object_type = "machine") (hr : a.type = "root")
    (hs : a.id ∈ u.solved_ids) (hu : a.id ∉ u.user_flag_ids) :
    a.id ∈ (reconcileUser u acts).root_flag_ids ∧
    0 < (reconcileUser u acts).machines := by
  have hne : acts ≠ [] := by
    intro h
    subst h
    exact absurd ha (List.not_mem_nil a)
  have hmem : a.id ∈ rootFlagsOf u acts := by
    rw [rootFlagsOf, List.mem_toFinset]
    exact List.mem_filterMap.mpr ⟨a, ha, by rw [if_pos ⟨hm, hr, hs, hu⟩]⟩
  have hre : rootFlagsOf u acts ≠ ∅ := by
    intro h
    rw [h] at hmem
    exact absurd hmem (Finset.not_mem_empty _)
  rw [reconcileUser, if_neg hne, if_neg hre]
  exact ⟨hmem, Finset.card_pos.mpr ⟨a.id, hmem⟩⟩

/-- Witness for the amended C3 at a concrete input. -/
theorem reconciliation_preserves_unflagged_root_witness :
    (5 : Nat) ∈ (reconcileUser
      { name := "a", discord_id := some 1, machines := 1, challenges := 0,
        streak := 0, solved_ids := {5}, user_flag_ids := ∅,
        root_flag_ids := {5} }
      [{ id := 5, object_type := "machine", type := "root", name := "X" }]).root_flag_ids :=
  (reconciliation_preserves_unflagged_root
    { name := "a", discord_id := some 1, machines := 1, challenges := 0,
      streak := 0, solved_ids := {5}, user_flag_ids := ∅,
      root_flag_ids := {5} }
    [{ id := 5, object_type := "machine", type := "root", name := "X" }]
    { id := 5, object_type := "machine", type := "root", name := "X" }
    (by decide) rfl rfl (by decide) (by decide)).1

/-- Counterexample to claim C5 as stated: the body of
`scheduled_weekly_reset` keeps no last-fired date — its only check is
`now_greece.weekday() == 5` — so two re-entrant invocations after the
trigger time on the same Saturday both fire the reset. -/
theorem scheduled_reset_no_daily_guard :
    ((resetFirings
        [{ date := 0, weekday := 5, minutesOfDay := 1260 },
         { date := 0, weekday := 5, minutesOfDay := 1261 }]).filter
      (fun t => t.date == 0)).length = 2 := by
  decide

/-- A list whose dates are pairwise distinct keeps at most one element of
any given date through any pair of filters. -/
lemma filter_date_le_one (p : Tick → Bool) (d : Nat) :
    ∀ l : List Tick, (l.map Tick.date).Nodup →
      ((l.filter p).filter (fun t => t.date == d)).length ≤ 1 := by
  intro l
  induction l with
  | nil => intro _; simp
  | cons x xs ih =>
    intro h
    rw [List.map_cons, List.nodup_cons] at h
    obtain ⟨hx, hxs⟩ := h
    by_cases hp : p x = true
    · by_cases hd : x.date = d
      · have htail : (xs.filter p).filter (fun t => t.date == d) = [] := by
          rw [List.filter_eq_nil_iff]
          intro t ht
          have ht' : t ∈ xs := List.mem_of_mem_filter ht
          simp only [beq_iff_eq]
          intro hdd
          exact hx (hd ▸ hdd ▸ List.mem_map_of_mem Tick.date ht')
        simp [List.filter_cons, hp, hd, htail]
      · rw [List.filter_cons, if_pos hp, List.filter_cons,
          if_neg (by simp [hd])]
        exact ih hxs
    · rw [List.filter_cons, if_neg hp]
      exact ih hxs

/-- Claim C5 amended: the repository's scheduler body fires exactly when
the Athens weekday is Saturday and keeps no last-fired date; at-most-once
per calendar day therefore rests on the `tasks.loop(time=...)` invocation
schedule, which wakes the body once per day at the fixed Athens time. Under
that schedule — invocation dates pairwise distinct — the reset fires at
most once on any given calendar day. -/
theorem scheduler_fires_once_per_day (ticks : List Tick)
    (h : (ticks.map Tick.date).Nodup) (d : Nat) :
    ((resetFirings ticks).filter (fun t => t.date == d)).length ≤ 1 :=
  filter_date_le_one scheduledResetFires d ticks h

/-- Witness for the amended C5 at a concrete input. -/
theorem scheduler_fires_once_per_day_witness :
    (([{ date := 0, weekday := 5, minutesOfDay := 1260 },
       { date := 1, weekday := 6, minutesOfDay := 1260 }].map Tick.date).Nodup) ∧
    ((resetFirings
        [{ date := 0, weekday := 5, minutesOfDay := 1260 },
         { date := 1, weekday := 6, minutesOfDay := 1260 }]).filter
      (fun t => t.date == 0)).length ≤ 1 :=
  ⟨by decide,
   scheduler_fires_once_per_day
     [{ date := 0, weekday := 5, minutesOfDay := 1260 },
      { date := 1, weekday := 6, minutesOfDay := 1260 }] (by decide) 0⟩

/-- Counterexample to claim C8 as stated: in `check_htb_activity` the
`save_db(db)` of line 517 runs after the `await channel.send(embed)` of
line 516, so a send failure aborts the iteration with the counter update
applied in memory (`machines` already incremented) but not persisted —
the delivery failure does prevent that event's persistence. -/
theorem send_failure_skips_persist :
    (ingestionEventStep
      { name := "a", discord_id := some 1, machines := 0, challenges := 0,
        streak := 0, solved_ids := ∅, user_flag_ids := ∅, root_flag_ids := ∅ }
      { id := 5, object_type := "machine", type := "root", name := "X" }
      false).state.machines = 1 ∧
    (ingestionEventStep
      { name := "a", discord_id := some 1, machines := 0, challenges := 0,
        streak := 0, solved_ids := ∅, user_flag_ids := ∅, root_flag_ids := ∅ }
      { id := 5, object_type := "machine", type := "root", name := "X" }
      false).persisted = false := by
  decide

/-- Claim C8 amended: for a non-`AlreadySeen` outcome the in-memory ledger
mutation is applied before the notification send and is never rolled back
by a send failure; persistence of that mutation happens within the same
iteration exactly when the send succeeds — on a failure the mutation stays
in memory, unpersisted until some later successful save. -/
theorem mutation_never_rolled_back (u : TrackedUser) (a : Activity)
    (h : alreadyProcessed u a = false) :
    (ingestionEventStep u a true).state = processActivity u a ∧
    (ingestionEventStep u a true).notified = true ∧
    (ingestionEventStep u a true).persisted = true ∧
    (ingestionEventStep u a false).state = processActivity u a ∧
    (ingestionEventStep u a false).persisted = false := by
  simp [ingestionEventStep, h]

/-- Witness for the amended C8 at a concrete input. -/
theorem mutation_never_rolled_back_witness :
    (ingestionEventStep
      { name := "a", discord_id := some 1, machines := 0, challenges := 0,
        streak := 0, solved_ids := ∅, user_flag_ids := ∅, root_flag_ids := ∅ }
      { id := 5, object_type := "machine", type := "root", name := "X" }
      true).persisted = true :=
  (mutation_never_rolled_back
    { name := "a", discord_id := some 1, machines := 0, challenges := 0,
      streak := 0, solved_ids := ∅, user_flag_ids := ∅, root_flag_ids := ∅ }
    { id := 5, object_type := "machine", type := "root", name := "X" }
    (by decide)).2.2.1

/- ===== Ingestion-cycle lemmas for the registration claim ===== -/

lemma solved_subset_processActivity (u : TrackedUser) (a : Activity) :
    u.solved_ids ⊆ (processActivity u a).solved_ids := by
  rw [processActivity]
  split_ifs <;> simp [Finset.subset_insert]

lemma user_flag_subset_processActivity (u : TrackedUser) (a : Activity) :
    u.user_flag_ids ⊆ (processActivity u a).user_flag_ids := by
  rw [processActivity]
  split_ifs <;> simp [Finset.subset_insert]

lemma streak_processActivity (u : TrackedUser) (a : Activity) :
    (processActivity u a).streak = u.streak := by
  rw [processActivity]
  split_ifs <;> rfl

/-- The machine user-flag branch in closed form. -/
lemma processActivity_machine_user (u : TrackedUser) (a : Activity)
    (hm : a.object_type = "machine") (hu : a.type = "user") :
    processActivity u a =
      if a.id ∈ u.user_flag_ids then u
      else { u with user_flag_ids := insert a.id u.user_flag_ids } := by
  by_cases h : a.id ∈ u.user_flag_ids <;>
    simp [processActivity, alreadyProcessed, hm, hu, h]

lemma alreadyProcessed_of_solved (u : TrackedUser) (a : Activity)
    (hmu : ¬(a.object_type = "machine" ∧ a.type = "user"))
    (hs : a.id ∈ u.solved_ids) : alreadyProcessed u a = true := by
  simp [alreadyProcessed, hmu, hs]

lemma processActivity_of_seen (u : TrackedUser) (a : Activity)
    (h : alreadyProcessed u a = true) : processActivity u a = u := by
  simp [processActivity, h]

/-- Counter preservation for one event that is either already recorded in
`solved_ids` or is a machine user-flag. -/
lemma counters_processActivity (u : TrackedUser) (a : Activity)
    (h : a.id ∈ u.solved_ids ∨ (a.object_type = "machine" ∧ a.type = "user")) :
    (processActivity u a).machines = u.machines ∧
    (processActivity u a).challenges = u.challenges := by
  by_cases hmu : a.object_type = "machine" ∧ a.type = "user"
  · rw [processActivity_machine_user u a hmu.1 hmu.2]
    split_ifs <;> exact ⟨rfl, rfl⟩
  · rcases h with hs | h2
    · rw [processActivity_of_seen u a (alreadyProcessed_of_solved u a hmu hs)]
      exact ⟨rfl, rfl⟩
    · exact absurd h2 hmu

lemma solved_subset_foldl (acts : List Activity) :
    ∀ u : TrackedUser, u.solved_ids ⊆ (acts.foldl processActivity u).solved_ids := by
  induction acts with
  | nil => intro u; exact Finset.Subset.refl _
  | cons a l ih =>
    intro u
    exact (solved_subset_processActivity u a).trans (ih (processActivity u a))

lemma user_flag_subset_foldl (acts : List Activity) :
    ∀ u : TrackedUser,
      u.user_flag_ids ⊆ (acts.foldl processActivity u).user_flag_ids := by
  induction acts with
  | nil => intro u; exact Finset.Subset.refl _
  | cons a l ih =>
    intro u
    exact (user_flag_subset_processActivity u a).trans (ih (processActivity u a))

/-- Counters and streak survive a whole fold over events that are all
already recorded or user-flag-only. -/
lemma counters_foldl (acts : List Activity) :
    ∀ u : TrackedUser,
      (∀ a ∈ acts,
        a.id ∈ u.solved_ids ∨ (a.object_type = "machine" ∧ a.type = "user")) →
      (acts.foldl processActivity u).machines = u.machines ∧
      (acts.foldl processActivity u).challenges = u.challenges ∧
      (acts.foldl processActivity u).streak = u.streak := by
  induction acts with
  | nil => intro u _; exact ⟨rfl, rfl, rfl⟩
  | cons a l ih =>
    intro u h
    have hc := counters_processActivity u a (h a (List.mem_cons_self a l))
    have hrest := ih (processActivity u a) (fun b hb =>
      (h b (List.mem_cons_of_mem a hb)).imp
        (fun hs => solved_subset_processActivity u a hs) id)
    rw [List.foldl_cons]
    exact ⟨hrest.1.trans hc.1, hrest.2.1.trans hc.2,
      hrest.2.2.trans (streak_processActivity u a)⟩

lemma mem_user_flag_processActivity (u : TrackedUser) (a : Activity)
    (hm : a.object_type = "machine") (hu : a.type = "user") :
    a.id ∈ (processActivity u a).user_flag_ids := by
  rw [processActivity_machine_user u a hm hu]
  split_ifs with h
  · exact h
  · exact Finset.mem_insert_self _ _

/-- Every machine user-flag event of a fold ends with its composite key
recorded. -/
lemma mem_user_flag_foldl (acts : List Activity) :
    ∀ u : TrackedUser, ∀ a ∈ acts, a.object_type = "machine" → a.type = "user" →
      a.id ∈ (acts.foldl processActivity u).user_flag_ids := by
  induction acts with
  | nil =>
    intro u a ha
    exact absurd ha (List.not_mem_nil a)
  | cons b l ih =>
    intro u a ha hm hu
    rw [List.foldl_cons]
    rcases List.mem_cons.mp ha with rfl | ha'
    · exact user_flag_subset_foldl l (processActivity u a)
        (mem_user_flag_processActivity u a hm hu)
    · exact ih (processActivity u b) a ha' hm hu

lemma alreadyProcessed_mono (u : TrackedUser) (a b : Activity)
    (h : alreadyProcessed u a = true) :
    alreadyProcessed (processActivity u b) a = true := by
  by_cases hc : a.object_type = "machine" ∧ a.type = "user"
  · rw [alreadyProcessed, if_pos hc] at h ⊢
    exact decide_eq_true
      (user_flag_subset_processActivity u b (of_decide_eq_true h))
  · rw [alreadyProcessed, if_neg hc] at h ⊢
    exact decide_eq_true
      (solved_subset_processActivity u b (of_decide_eq_true h))

lemma alreadyProcessed_foldl (acts : List Activity) :
    ∀ (u : TrackedUser) (a : Activity), alreadyProcessed u a = true →
      alreadyProcessed (acts.foldl processActivity u) a = true := by
  induction acts with
  | nil => intro u a h; exact h
  | cons b l ih =>
    intro u a h
    rw [List.foldl_cons]
    exact ih (processActivity u b) a (alreadyProcessed_mono u a b h)

/-- After one full cycle over a history whose events are all recorded or
user-flag-only, every event of that history is `already_processed`. -/
lemma alreadyProcessed_after_cycle (snap : List Activity) (u : TrackedUser)
    (h : ∀ a ∈ snap,
      a.id ∈ u.solved_ids ∨ (a.object_type = "machine" ∧ a.type = "user")) :
    ∀ a ∈ snap, alreadyProcessed (runCycle u snap) a = true := by
  intro a ha
  by_cases hmu : a.object_type = "machine" ∧ a.type = "user"
  · rw [alreadyProcessed, if_pos hmu]
    exact decide_eq_true (mem_user_flag_foldl snap.reverse u a
      (List.mem_reverse.mpr ha) hmu.1 hmu.2)
  · rcases h a ha with hs | h2
    · exact alreadyProcessed_foldl snap.reverse u a
        (alreadyProcessed_of_solved u a hmu hs)
    · exact absurd h2 hmu

lemma classify_of_seen (u : TrackedUser) (a : Activity)
    (h : alreadyProcessed u a = true) : classify u a = Outcome.alreadySeen := by
  simp [classify, h]

/-- Counterexample to claim C9 as stated: registration seeds only
`solved_ids` from the snapshot while `user_flag_ids` starts empty (bot.py
lines 248-257), so a machine user-flag event already present in the
snapshot is *not* classified `AlreadySeen` on the next cycle — its
`already_processed` test consults `user_flag_ids` — and it produces a
fresh notification-only outcome. -/
theorem seeded_user_flag_renotifies :
    classify
      (registerUser "a" 1
        [{ id := 7, object_type := "machine", type := "user", name := "X" }])
      { id := 7, object_type := "machine", type := "user", name := "X" }
      = Outcome.notifyOnly ∧
    classify
      (registerUser "a" 1
        [{ id := 7, object_type := "machine", type := "user", name := "X" }])
      { id := 7, object_type := "machine", type := "user", name := "X" }
      ≠ Outcome.alreadySeen := by
  decide

/-- Claim C9 amended: on first registration the new record has zero
counters and zero streak, and its `solved_ids` seeding keeps history from
being retroactively counted: over an unchanged history, after any number
of ingestion cycles both counters (and the streak) are still zero; every
snapshot event other than a machine user-flag is classified `AlreadySeen`
from the start; and once one cycle has run, every snapshot event —
machine user-flags included — is classified `AlreadySeen`. (The machine
user-flag events of the snapshot are re-notified once, with no counter
change — see the counterexample.) -/
theorem seeded_history_never_counted (snap : List Activity) (nm : String)
    (did k : Nat) :
    ((fun u => runCycle u snap)^[k] (registerUser nm did snap)).machines = 0 ∧
    ((fun u => runCycle u snap)^[k] (registerUser nm did snap)).challenges = 0 ∧
    ((fun u => runCycle u snap)^[k] (registerUser nm did snap)).streak = 0 ∧
    (∀ a ∈ snap, ¬(a.object_type = "machine" ∧ a.type = "user") →
      classify ((fun u => runCycle u snap)^[k] (registerUser nm did snap)) a
        = Outcome.alreadySeen) ∧
    (0 < k → ∀ a ∈ snap,
      classify ((fun u => runCycle u snap)^[k] (registerUser nm did snap)) a
        = Outcome.alreadySeen) := by
  have hseed : ∀ a ∈ snap,
      a.id ∈ (registerUser nm did snap).solved_ids := by
    intro a ha
    exact List.mem_toFinset.mpr (List.mem_map_of_mem Activity.id ha)
  have key : ∀ j : Nat,
      ((fun u => runCycle u snap)^[j] (registerUser nm did snap)).machines = 0 ∧
      ((fun u => runCycle u snap)^[j] (registerUser nm did snap)).challenges = 0 ∧
      ((fun u => runCycle u snap)^[j] (registerUser nm did snap)).streak = 0 ∧
      (∀ a ∈ snap,
        a.id ∈ ((fun u => runCycle u snap)^[j] (registerUser nm did snap)).solved_ids ∨
        (a.object_type = "machine" ∧ a.type = "user")) := by
    intro j
    induction j with
    | zero =>
      exact ⟨rfl, rfl, rfl, fun a ha => Or.inl (hseed a ha)⟩
    | succ i ih =>
      obtain ⟨hm, hc, hs, hinv⟩ := ih
      rw [Function.iterate_succ_apply']
      have hfold := counters_foldl snap.reverse
        ((fun u => runCycle u snap)^[i] (registerUser nm did snap))
        (fun a ha => hinv a (List.mem_reverse.mp ha))
      refine ⟨hfold.1.trans hm, hfold.2.1.trans hc, hfold.2.2.trans hs, ?_⟩
      intro a ha
      exact (hinv a ha).imp
        (fun h => solved_subset_foldl snap.reverse _ h) id
  obtain ⟨hm, hc, hs, hinv⟩ := key k
  refine ⟨hm, hc, hs, ?_, ?_⟩
  · intro a ha hmu
    rcases hinv a ha with h | h2
    · exact classify_of_seen _ a (alreadyProcessed_of_solved _ a hmu h)
    · exact absurd h2 hmu
  · intro hk a ha
    obtain ⟨i, rfl⟩ : ∃ i, k = i + 1 :=
      ⟨k - 1, (Nat.succ_pred_eq_of_pos hk).symm⟩
    rw [Function.iterate_succ_apply']
    obtain ⟨_, _, _, hinv'⟩ := key i
    exact classify_of_seen _ a
      (alreadyProcessed_after_cycle snap _ (hinv') a ha)

/-- Witness for the amended C9 at a concrete input: a challenge event in
the snapshot is `AlreadySeen` after one cycle over unchanged history. -/
theorem seeded_history_never_counted_witness :
    classify
      ((fun u => runCycle u
          [{ id := 7, object_type := "challenge", type := "blood",
             name := "Y" }])^[1]
        (registerUser "a" 1
          [{ id := 7, object_type := "challenge", type := "blood",
             name := "Y" }]))
      { id := 7, object_type := "challenge", type := "blood", name := "Y" }
      = Outcome.alreadySeen :=
  (seeded_history_never_counted
    [{ id := 7, object_type := "challenge", type := "blood", name := "Y" }]
    "a" 1 1).2.2.2.2 (by decide)
    { id := 7, object_type := "challenge", type := "blood", name := "Y" }
    (by decide)
